import Mathlib

/-!
Shallow embedding of the Kaleidoscope front end in src/lexer.cpp:
tokenizer (gettok), recursive-descent / precedence-climbing parser
(ParsePrimary, ParseBinOpRHS, ParseExpression, ParsePrototype,
ParseDefinition, ParseExtern, ParseTopLevelExpr), the driver loop
(MainLoop with its Handle* helpers), and the IR emitter (codegen per
AST node), followed by theorems settling the claims about them.

Conventions of the embedding:
- The C input stream (getchar with its one-character pushback LastChar)
  becomes an explicit state: LexState holds LastChar (none = EOF) and
  the list of characters not yet read.  After real EOF, C getchar keeps
  returning EOF; here lastChar = none persists the same way.
- Tokens carry their payloads (IdentifierStr, the numeral text) instead
  of the source's globals.  NumVal = strtod(numeral text) in the source;
  no claim depends on that conversion, so the token and the
  NumberExprAST node carry the numeral text itself.
- The parser's global CurTok / getNextToken become a List Token whose
  head is CurTok; an exhausted list stands for the stream of tok_eof
  that gettok would keep producing.
- Recursive parser functions take a fuel argument (the source recursion
  is bounded only by the input); fuel exhaustion returns a parse
  failure, and theorems are stated so fuel only ever helps.
-/

namespace Kaleidoscope

/-- C ctype isspace under the default locale (space, \t, \n, \v, \f, \r),
as used by the tokenizer's whitespace skip. -/
def isspace (c : Char) : Bool :=
  c = ' ' || c = '\t' || c = '\n' || c = '\x0b' || c = '\x0c' || c = '\r'

/-- C ctype isalpha under the default locale: [A-Za-z]. -/
def isalpha (c : Char) : Bool :=
  ('A' ≤ c && c ≤ 'Z') || ('a' ≤ c && c ≤ 'z')

/-- C ctype isdigit: [0-9]. -/
def isdigit (c : Char) : Bool :=
  '0' ≤ c && c ≤ '9'

/-- C ctype isalnum: [A-Za-z0-9]. -/
def isalnum (c : Char) : Bool :=
  isalpha c || isdigit c

/-- The token type of the lexer.  In the source gettok returns an int:
the negative enum values tok_eof, tok_def, tok_extern, tok_identifier,
tok_number, or the ascii value of any other character.  Payloads
(IdentifierStr, the numeral text whose strtod value is NumVal) are
carried in the token here instead of globals.  tok_ext models
tok_extern. -/
inductive Token where
  | tok_eof
  | tok_def
  | tok_ext
  | tok_identifier (s : String)
  | tok_number (numStr : String)
  | op (c : Char)
deriving DecidableEq, Repr

/-- The tokenizer's state: LastChar (none models EOF) plus the
characters not yet consumed from the input stream. -/
structure LexState where
  lastChar : Option Char
  rest : List Char
deriving DecidableEq, Repr

/-- The while (isspace(LastChar)) LastChar = getchar(); loop of gettok. -/
def skipSpaces : Option Char → List Char → Option Char × List Char
  | none, r => (none, r)
  | some c, r =>
    if isspace c then
      match r with
      | [] => (none, [])
      | d :: rs => skipSpaces (some d) rs
    else (some c, r)

/-- The comment loop of gettok:
do LastChar = getchar(); while (LastChar != EOF, \n, \r). -/
def skipComment : List Char → Option Char × List Char
  | [] => (none, [])
  | c :: rs => if c = '\n' || c = '\r' then (some c, rs) else skipComment rs

/-- The identifier loop of gettok:
while (isalnum(LastChar = getchar())) IdentifierStr += LastChar.
Returns (accumulated characters, final LastChar, remaining input). -/
def identLoop (acc : List Char) : List Char → List Char × Option Char × List Char
  | [] => (acc, none, [])
  | d :: rs => if isalnum d then identLoop (acc ++ [d]) rs else (acc, some d, rs)

/-- The numeral loop of gettok:
do NumStr += LastChar; LastChar = getchar(); while (isdigit or dot). -/
def numLoop (acc : List Char) : List Char → List Char × Option Char × List Char
  | [] => (acc, none, [])
  | d :: rs => if isdigit d || d = '.' then numLoop (acc ++ [d]) rs else (acc, some d, rs)

theorem skipSpaces_length_le (r : List Char) :
    ∀ lc, (skipSpaces lc r).2.length ≤ r.length := by
  induction r with
  | nil =>
    intro lc
    cases lc with
    | none => simp [skipSpaces]
    | some c =>
      simp only [skipSpaces]
      split <;> simp
  | cons d rs ih =>
    intro lc
    cases lc with
    | none => simp [skipSpaces]
    | some c =>
      simp only [skipSpaces]
      split
      · exact le_trans (ih (some d)) (Nat.le_succ _)
      · simp

theorem skipComment_length_lt (r : List Char) :
    ∀ c2 r2, skipComment r = (some c2, r2) → r2.length < r.length := by
  induction r with
  | nil => intro c2 r2 h; simp [skipComment] at h
  | cons c rs ih =>
    intro c2 r2 h
    simp only [skipComment] at h
    split at h
    · cases h
      simp
    · exact lt_trans (ih c2 r2 h) (by simp)

/-- gettok from src/lexer.cpp: skip whitespace; an alphabetic character
starts an identifier ([a-zA-Z][a-zA-Z0-9]*), classified as tok_def /
tok_extern / tok_identifier; a digit or dot starts a numeral ([0-9.]+,
NumVal = strtod of the text); # skips a comment to end of line and
recurses unless the comment ran to EOF; EOF yields tok_eof and leaves
LastChar at EOF; any other character is returned as itself with the
next character read into LastChar. -/
def gettok (s : LexState) : Token × LexState :=
  match hs : skipSpaces s.lastChar s.rest with
  | (none, rest) => (Token.tok_eof, ⟨none, rest⟩)
  | (some c, rest) =>
    if isalpha c then
      match identLoop [c] rest with
      | (idChars, lc2, rest2) =>
        let idStr := String.mk idChars
        (if idStr = "def" then Token.tok_def
         else if idStr = "extern" then Token.tok_ext
         else Token.tok_identifier idStr, ⟨lc2, rest2⟩)
    else if isdigit c || c = '.' then
      match numLoop [c] rest with
      | (numChars, lc2, rest2) => (Token.tok_number (String.mk numChars), ⟨lc2, rest2⟩)
    else if c = '#' then
      match hc : skipComment rest with
      | (some c2, rest2) => gettok ⟨some c2, rest2⟩
      | (none, rest2) => (Token.tok_eof, ⟨none, rest2⟩)
    else
      match rest with
      | [] => (Token.op c, ⟨none, []⟩)
      | d :: rs => (Token.op c, ⟨some d, rs⟩)
termination_by s.rest.length
decreasing_by
  have h1 := skipSpaces_length_le s.rest s.lastChar
  rw [hs] at h1
  have h2 := skipComment_length_lt rest c2 rest2 hc
  simp at h1
  omega

/-! ## Parse tree (the ExprAST hierarchy of src/lexer.cpp) -/

/-- The AST node variants: NumberExprAST (whose double Val is
strtod(numeral text); the node carries the text, see the note on
Token.tok_number), VariableExprAST, BinaryExprAST, CallExprAST. -/
inductive ExprAST where
  | number (numStr : String)
  | variable (name : String)
  | binary (op : Char) (lhs rhs : ExprAST)
  | call (callee : String) (args : List ExprAST)
deriving Repr

/-- PrototypeAST: a function's name and argument names. -/
structure PrototypeAST where
  name : String
  args : List String
deriving DecidableEq, Repr

/-- FunctionAST: a prototype together with the body expression. -/
structure FunctionAST where
  proto : PrototypeAST
  body : ExprAST
deriving Repr

/-! ## Parser

The global CurTok becomes the head of a List Token ([] stands for the
endless tok_eof stream past end of input); getNextToken becomes
advance.  Each Parse* function returns (result option, token state):
a none result is the source's nullptr return after LogError, and the
token state records exactly what was consumed when the error surfaced. -/

/-- CurTok: the parser's one-token lookahead (gettok yields tok_eof
forever once the stream is exhausted). -/
def peek : List Token → Token
  | [] => Token.tok_eof
  | t :: _ => t

/-- getNextToken: consume the lookahead token. -/
def advance : List Token → List Token
  | [] => []
  | _ :: ts => ts

/-- The BinopPrecedence map as populated in main:
'<' = 10, '+' = 20, '-' = 20, '*' = 40.  std::map operator[] yields the
default 0 for any other key. -/
def BinopPrecedence (c : Char) : Int :=
  if c = '<' then 10
  else if c = '+' then 20
  else if c = '-' then 20
  else if c = '*' then 40
  else 0

/-- GetTokPrecedence: -1 unless CurTok is an ascii character with a
positive entry in BinopPrecedence.  The named tokens are negative ints
in the source, so isascii rejects them. -/
def GetTokPrecedence (t : Token) : Int :=
  match t with
  | Token.op c =>
    if c.toNat ≤ 127 then
      if BinopPrecedence c ≤ 0 then -1 else BinopPrecedence c
    else -1
  | _ => -1

/-- int BinOp = CurTok, later truncated to char by the BinaryExprAST
constructor.  For the named tokens this is the low byte of the negative
enum value; those cases are unreachable from the actual call sites
(which require precedence at least 0). -/
def TokAsChar : Token → Char
  | Token.op c => c
  | Token.tok_eof => Char.ofNat 0xFF
  | Token.tok_def => Char.ofNat 0xFE
  | Token.tok_ext => Char.ofNat 0xFD
  | Token.tok_identifier _ => Char.ofNat 0xFC
  | Token.tok_number _ => Char.ofNat 0xFB

mutual

/-- ParsePrimary: dispatch on CurTok to the identifier, number or
parenthesis production; anything else is "unknown token when expecting
an expression" (no token consumed). -/
def ParsePrimary : Nat → List Token → Option ExprAST × List Token
  | 0, ts => (none, ts)
  | f + 1, ts =>
    match peek ts with
    | Token.tok_identifier _ => ParseIdentifierExpr f ts
    | Token.tok_number _ => ParseNumberExpr ts
    | Token.op c => if c = '(' then ParseParenExpr f ts else (none, ts)
    | _ => (none, ts)

/-- ParseIdentifierExpr: an identifier alone is a VariableExprAST; an
identifier followed by '(' parses a comma-separated argument list
closed by ')' into a CallExprAST. -/
def ParseIdentifierExpr : Nat → List Token → Option ExprAST × List Token
  | 0, ts => (none, ts)
  | f + 1, ts =>
    match peek ts with
    | Token.tok_identifier idName =>
      let ts1 := advance ts
      if peek ts1 = Token.op '(' then
        let ts2 := advance ts1
        if peek ts2 = Token.op ')' then (some (ExprAST.call idName []), advance ts2)
        else ParseArgsLoop f idName [] ts2
      else (some (ExprAST.variable idName), ts1)
    | _ => (none, ts)

/-- The argument-list loop inside ParseIdentifierExpr: parse an
expression, then stop at ')' or continue past ','; any other token is
"Expected ')' or ',' in argument list". -/
def ParseArgsLoop : Nat → String → List ExprAST → List Token → Option ExprAST × List Token
  | 0, _, _, ts => (none, ts)
  | f + 1, idName, acc, ts =>
    match ParseExpression f ts with
    | (some arg, ts1) =>
      if peek ts1 = Token.op ')' then (some (ExprAST.call idName (acc ++ [arg])), advance ts1)
      else if peek ts1 = Token.op ',' then ParseArgsLoop f idName (acc ++ [arg]) (advance ts1)
      else (none, ts1)
    | (none, ts1) => (none, ts1)

/-- ParseParenExpr: '(' expression ')'; a missing ')' is an error. -/
def ParseParenExpr : Nat → List Token → Option ExprAST × List Token
  | 0, ts => (none, ts)
  | f + 1, ts =>
    let ts1 := advance ts
    match ParseExpression f ts1 with
    | (some v, ts2) =>
      if peek ts2 = Token.op ')' then (some v, advance ts2) else (none, ts2)
    | (none, ts2) => (none, ts2)

/-- ParseNumberExpr: a NumberExprAST from the current tok_number, then
consume it.  (Only reached from ParsePrimary with CurTok = tok_number.) -/
def ParseNumberExpr : List Token → Option ExprAST × List Token
  | ts =>
    match peek ts with
    | Token.tok_number v => (some (ExprAST.number v), advance ts)
    | _ => (none, ts)

/-- ParseExpression: a primary followed by the binary-operator loop at
minimum precedence 0. -/
def ParseExpression : Nat → List Token → Option ExprAST × List Token
  | 0, ts => (none, ts)
  | f + 1, ts =>
    match ParsePrimary f ts with
    | (some lhs, ts1) => ParseBinOpRHS f 0 lhs ts1
    | (none, ts1) => (none, ts1)

/-- ParseBinOpRHS, the precedence-climbing loop: return the
accumulated LHS as soon as the lookahead precedence drops below the
threshold; otherwise consume the operator, parse a primary RHS, let a
strictly tighter next operator absorb the RHS first, and merge into a
BinaryExprAST that becomes the new LHS. -/
def ParseBinOpRHS : Nat → Int → ExprAST → List Token → Option ExprAST × List Token
  | 0, _, _, ts => (none, ts)
  | f + 1, exprPrec, lhs, ts =>
    let tokPrec := GetTokPrecedence (peek ts)
    if tokPrec < exprPrec then (some lhs, ts)
    else
      let binOp := TokAsChar (peek ts)
      let ts1 := advance ts
      match ParsePrimary f ts1 with
      | (none, ts2) => (none, ts2)
      | (some rhs, ts2) =>
        let nextPrec := GetTokPrecedence (peek ts2)
        if tokPrec < nextPrec then
          match ParseBinOpRHS f (tokPrec + 1) rhs ts2 with
          | (none, ts3) => (none, ts3)
          | (some rhs2, ts3) => ParseBinOpRHS f exprPrec (ExprAST.binary binOp lhs rhs2) ts3
        else ParseBinOpRHS f exprPrec (ExprAST.binary binOp lhs rhs) ts2

end

/-- The argument-name loop of ParsePrototype:
while (getNextToken() == tok_identifier) ArgNames.push_back(IdentifierStr).
Entered with CurTok = '('; leaves CurTok at the first non-identifier
token read. -/
def ProtoArgsLoop : List Token → List String × List Token
  | [] => ([], [])
  | _ :: rest =>
    match rest with
    | Token.tok_identifier a :: _ =>
      match ProtoArgsLoop rest with
      | (args, ts2) => (a :: args, ts2)
    | _ => ([], rest)

/-- ParsePrototype: identifier '(' identifier* ')'.  A missing name,
'(' or ')' is an error (LogErrorP, nullptr). -/
def ParsePrototype (ts : List Token) : Option PrototypeAST × List Token :=
  match peek ts with
  | Token.tok_identifier fnName =>
    let ts1 := advance ts
    if peek ts1 = Token.op '(' then
      match ProtoArgsLoop ts1 with
      | (args, ts2) =>
        if peek ts2 = Token.op ')' then (some ⟨fnName, args⟩, advance ts2)
        else (none, ts2)
    else (none, ts1)
  | _ => (none, ts)

/-- ParseDefinition: consume 'def', parse a prototype, then the body
expression. -/
def ParseDefinition (f : Nat) (ts : List Token) : Option FunctionAST × List Token :=
  let ts1 := advance ts
  match ParsePrototype ts1 with
  | (none, ts2) => (none, ts2)
  | (some p, ts2) =>
    match ParseExpression f ts2 with
    | (some e, ts3) => (some ⟨p, e⟩, ts3)
    | (none, ts3) => (none, ts3)

/-- ParseExtern (named ParseExt here): consume 'extern', then parse a
prototype. -/
def ParseExt (ts : List Token) : Option PrototypeAST × List Token :=
  ParsePrototype (advance ts)

/-- ParseTopLevelExpr: parse an expression and wrap it in a FunctionAST
whose prototype has the empty name and no arguments. -/
def ParseTopLevelExpr (f : Nat) (ts : List Token) : Option FunctionAST × List Token :=
  match ParseExpression f ts with
  | (some e, ts1) => (some ⟨⟨"", []⟩, e⟩, ts1)
  | (none, ts1) => (none, ts1)

/-! ## Top-level driver (MainLoop and the Handle* helpers)

The handlers' stderr success messages become the Out type; LogError
diagnostics printed inside the parser are not modelled (the handlers
themselves print nothing on failure and just skip one token). -/

/-- The driver's per-unit outcome messages ("Parsed a function
definition." / "Parsed an extern" / "Parsed a top-level expr"). -/
inductive Out where
  | parsedDef
  | parsedExt
  | parsedTopLevel
deriving DecidableEq, Repr

/-- HandleDefinition: report success, or skip one token for error
recovery. -/
def HandleDefinition (f : Nat) (ts : List Token) : Option Out × List Token :=
  match ParseDefinition f ts with
  | (some _, ts1) => (some Out.parsedDef, ts1)
  | (none, ts1) => (none, advance ts1)

/-- HandleExtern (named HandleExt here): report success, or skip one
token for error recovery. -/
def HandleExt (f : Nat) (ts : List Token) : Option Out × List Token :=
  match ParseExt ts with
  | (some _, ts1) => (some Out.parsedExt, ts1)
  | (none, ts1) => (none, advance ts1)

/-- HandleTopLevelExpression: report success, or skip one token for
error recovery. -/
def HandleTopLevelExpression (f : Nat) (ts : List Token) : Option Out × List Token :=
  match ParseTopLevelExpr f ts with
  | (some _, ts1) => (some Out.parsedTopLevel, ts1)
  | (none, ts1) => (none, advance ts1)

/-- MainLoop: stop at tok_eof; silently consume a top-level ';';
dispatch def / extern / anything else to the handlers, collecting
their success messages. -/
def MainLoop : Nat → List Token → List Out
  | 0, _ => []
  | f + 1, ts =>
    match peek ts with
    | Token.tok_eof => []
    | Token.tok_def =>
      match HandleDefinition f ts with
      | (some o, ts1) => o :: MainLoop f ts1
      | (none, ts1) => MainLoop f ts1
    | Token.tok_ext =>
      match HandleExt f ts with
      | (some o, ts1) => o :: MainLoop f ts1
      | (none, ts1) => MainLoop f ts1
    | Token.op ';' => MainLoop f (advance ts)
    | _ =>
      match HandleTopLevelExpression f ts with
      | (some o, ts1) => o :: MainLoop f ts1
      | (none, ts1) => MainLoop f ts1

/-! ## IR emission (the codegen methods)

LLVM Values and the IRBuilder are modelled symbolically: emission
appends Instr records to a list (the instruction sequence the builder
would produce) and a Value is either a floating constant or the index
of an emitted instruction.  NamedValues and the module's function
registry are explicit arguments. -/

/-- An LLVM Value: a ConstantFP (carrying the numeral text whose
strtod value the source would wrap in an APFloat) or the result of the
idx-th emitted instruction. -/
inductive IRValue where
  | constFP (numStr : String)
  | inst (idx : Nat)
deriving DecidableEq, Repr

/-- The IRBuilder instructions this program can emit: CreateFAdd,
CreateFSub, CreateFMul, CreateFCmpULT, CreateUIToFP (to double), and
CreateCall. -/
inductive Instr where
  | fadd (l r : IRValue)
  | fsub (l r : IRValue)
  | fmul (l r : IRValue)
  | fcmpult (l r : IRValue)
  | uitofp (v : IRValue)
  | call (callee : String) (args : List IRValue)
deriving DecidableEq, Repr

/-- Append one instruction to the builder's sequence and return its
result Value. -/
def emit (i : Instr) (s : List Instr) : IRValue × List Instr :=
  (IRValue.inst s.length, s ++ [i])

mutual

/-- codegen dispatched over the ExprAST variants, from src/lexer.cpp:
NumberExprAST::codegen makes a ConstantFP; VariableExprAST::codegen
looks the name up in NamedValues (env) and yields the null it finds
when the name is unbound (after LogErrorV); BinaryExprAST::codegen
emits both operands, returns nullptr if either failed, then dispatches
on Op ('+' fadd, '-' fsub, '*' fmul, '<' fcmpult widened by uitofp,
anything else "invalid binary operator"); the Call case is delegated
to CodegenCall.  The fuel argument only bounds the recursion depth
(the source recursion is bounded by the tree); theorems quantify over
it or use a sufficient concrete amount. -/
def codegen (env : String → Option IRValue) (reg : String → Option PrototypeAST) :
    Nat → ExprAST → List Instr → Option IRValue × List Instr
  | 0, _, s => (none, s)
  | _ + 1, ExprAST.number v, s => (some (IRValue.constFP v), s)
  | _ + 1, ExprAST.variable n, s => (env n, s)
  | f + 1, ExprAST.binary op l r, s =>
    match codegen env reg f l s with
    | (resL, s1) =>
      match codegen env reg f r s1 with
      | (resR, s2) =>
        match resL, resR with
        | some lv, some rv =>
          if op = '+' then
            let p := emit (Instr.fadd lv rv) s2
            (some p.1, p.2)
          else if op = '-' then
            let p := emit (Instr.fsub lv rv) s2
            (some p.1, p.2)
          else if op = '*' then
            let p := emit (Instr.fmul lv rv) s2
            (some p.1, p.2)
          else if op = '<' then
            let p := emit (Instr.fcmpult lv rv) s2
            let q := emit (Instr.uitofp p.1) p.2
            (some q.1, q.2)
          else (none, s2)
        | _, _ => (none, s2)
  | f + 1, ExprAST.call callee args, s => CodegenCall env reg f callee args s

/-- Modelled from the spec: CallExprAST::codegen is declared but never
defined in src/lexer.cpp, so this follows section 4.4 of the spec:
resolve the callee in the module registry (failure if absent), verify
the argument count equals the registered prototype's parameter count
(failure if mismatched), emit each argument left-to-right, then issue
a call instruction. -/
def CodegenCall (env : String → Option IRValue) (reg : String → Option PrototypeAST) :
    Nat → String → List ExprAST → List Instr → Option IRValue × List Instr
  | 0, _, _, s => (none, s)
  | f + 1, callee, args, s =>
    match reg callee with
    | none => (none, s)
    | some p =>
      if args.length ≠ p.args.length then (none, s)
      else
        match codegenArgs env reg f args s with
        | (none, s1) => (none, s1)
        | (some vs, s1) =>
          let q := emit (Instr.call callee vs) s1
          (some q.1, q.2)

/-- Emit a list of call arguments left-to-right, failing as soon as
one argument fails. -/
def codegenArgs (env : String → Option IRValue) (reg : String → Option PrototypeAST) :
    Nat → List ExprAST → List Instr → Option (List IRValue) × List Instr
  | 0, _, s => (none, s)
  | _ + 1, [], s => (some [], s)
  | f + 1, a :: rest, s =>
    match codegen env reg f a s with
    | (none, s1) => (none, s1)
    | (some v, s1) =>
      match codegenArgs env reg f rest s1 with
      | (none, s2) => (none, s2)
      | (some vs, s2) => (some (v :: vs), s2)

end

/-- An empty symbol table (no parameters bound). -/
def env0 : String → Option IRValue := fun _ => none

/-- An empty module registry (no functions declared). -/
def reg0 : String → Option PrototypeAST := fun _ => none

/-- The module registry after processing "extern foo(a b)": foo is
registered with the two parameters a and b. -/
def regFoo : String → Option PrototypeAST :=
  fun n => if n = "foo" then some ⟨"foo", ["a", "b"]⟩ else none

/-! ## Claims -/

/-- C1: over the precedence table '<' = 10, '+' = 20, '-' = 20,
'*' = 40, parsing the token streams of "1 + 2 * 3", "1 * 2 + 3" and
"1 - 2 - 3" yields (1 + (2 * 3)), ((1 * 2) + 3) and ((1 - 2) - 3):
a higher-precedence operator groups to the right and equal precedence
groups to the left. -/
theorem parse_precedence_examples :
    ParseExpression 20 [Token.tok_number "1", Token.op '+', Token.tok_number "2",
        Token.op '*', Token.tok_number "3"] =
      (some (ExprAST.binary '+' (ExprAST.number "1")
        (ExprAST.binary '*' (ExprAST.number "2") (ExprAST.number "3"))), []) ∧
    ParseExpression 20 [Token.tok_number "1", Token.op '*', Token.tok_number "2",
        Token.op '+', Token.tok_number "3"] =
      (some (ExprAST.binary '+'
        (ExprAST.binary '*' (ExprAST.number "1") (ExprAST.number "2"))
        (ExprAST.number "3")), []) ∧
    ParseExpression 20 [Token.tok_number "1", Token.op '-', Token.tok_number "2",
        Token.op '-', Token.tok_number "3"] =
      (some (ExprAST.binary '-'
        (ExprAST.binary '-' (ExprAST.number "1") (ExprAST.number "2"))
        (ExprAST.number "3")), []) := by
  refine ⟨rfl, rfl, rfl⟩

/-- C6: GetTokPrecedence returns -1 exactly when the current token is
not one of the operator characters registered in the precedence table
('<', '+', '-', '*') — in particular for the keyword, identifier,
number and end-of-input tokens — and on such a token ParseBinOpRHS
immediately returns the accumulated left-hand side without consuming
anything. -/
theorem tok_precedence_neg_one :
    (∀ t : Token, GetTokPrecedence t = -1 ↔
      ∀ c : Char, t = Token.op c → c ≠ '<' ∧ c ≠ '+' ∧ c ≠ '-' ∧ c ≠ '*') ∧
    (∀ (f : Nat) (exprPrec : Int) (lhs : ExprAST) (t : Token) (ts : List Token),
      0 ≤ exprPrec → GetTokPrecedence t = -1 →
      ParseBinOpRHS (f + 1) exprPrec lhs (t :: ts) = (some lhs, t :: ts)) := by
  constructor
  · intro t
    cases t with
    | op c =>
      constructor
      · intro h c2 e
        injection e with e2
        subst e2
        refine ⟨?_, ?_, ?_, ?_⟩ <;> rintro rfl <;> exact absurd h (by decide)
      · intro h
        obtain ⟨h1, h2, h3, h4⟩ := h c rfl
        simp only [GetTokPrecedence, BinopPrecedence, if_neg h1, if_neg h2, if_neg h3, if_neg h4]
        split <;> norm_num
    | tok_eof => simp [GetTokPrecedence]
    | tok_def => simp [GetTokPrecedence]
    | tok_ext => simp [GetTokPrecedence]
    | tok_identifier s => simp [GetTokPrecedence]
    | tok_number s => simp [GetTokPrecedence]
  · intro f exprPrec lhs t ts h0 hm
    simp only [ParseBinOpRHS, peek, hm]
    rw [if_pos (by omega)]

/-- Witness for C6 at a concrete input: at end of input the
precedence-climbing loop returns the left-hand side unchanged. -/
theorem tok_precedence_neg_one_witness :
    ParseBinOpRHS 5 0 (ExprAST.number "1") [Token.tok_eof] =
      (some (ExprAST.number "1"), [Token.tok_eof]) :=
  tok_precedence_neg_one.2 4 0 (ExprAST.number "1") Token.tok_eof [] (by decide) (by decide)

/-- C8: ParseTopLevelExpr wraps a successfully parsed expression in a
FunctionAST whose PrototypeAST has the reserved empty name and an
empty parameter list, and propagates the failure when the expression
fails to parse. -/
theorem toplevel_anonymous_wrapper :
    (∀ (f : Nat) (ts : List Token) (e : ExprAST) (ts1 : List Token),
      ParseExpression f ts = (some e, ts1) →
      ParseTopLevelExpr f ts = (some ⟨⟨"", []⟩, e⟩, ts1)) ∧
    (∀ (f : Nat) (ts ts1 : List Token),
      ParseExpression f ts = (none, ts1) →
      ParseTopLevelExpr f ts = (none, ts1)) := by
  refine ⟨?_, ?_⟩
  · intro f ts e ts1 h
    simp [ParseTopLevelExpr, h]
  · intro f ts ts1 h
    simp [ParseTopLevelExpr, h]

/-- Witness for C8 at a concrete input: a bare number becomes the body
of an anonymous zero-argument function. -/
theorem toplevel_anonymous_wrapper_witness :
    ParseTopLevelExpr 10 [Token.tok_number "7"] =
      (some ⟨⟨"", []⟩, ExprAST.number "7"⟩, []) :=
  toplevel_anonymous_wrapper.1 10 [Token.tok_number "7"] (ExprAST.number "7") [] rfl

/-- C9: when the current token is ';' the driver loop consumes it and
continues with the next token, emitting no message and performing no
parsing — running the loop on ';' followed by any stream equals
running it on the stream alone. -/
theorem mainloop_semicolon_skip :
    ∀ (f : Nat) (ts : List Token), MainLoop (f + 1) (Token.op ';' :: ts) = MainLoop f ts := by
  intro f ts
  rfl

/-- Witness for C9 at a concrete input: a top-level semicolon before a
number produces exactly the output of the number alone. -/
theorem mainloop_semicolon_skip_witness :
    MainLoop 3 (Token.op ';' :: [Token.tok_number "1"]) = MainLoop 2 [Token.tok_number "1"] :=
  mainloop_semicolon_skip 2 [Token.tok_number "1"]

/-- C4, counterexample: after the malformed top-level unit "(1" (a
parenthesized expression missing its ')'), the parser stops with
CurTok on the following tok_def, and the one-token error recovery
consumes that tok_def — so the following well-formed unit
"def bar(x) x+1" is NOT parsed as a definition (its pieces are
consumed as two top-level expressions instead).  The driver does not
resynchronize to the next unit boundary. -/
theorem mainloop_recovery_counterexample :
    MainLoop 30 [Token.op '(', Token.tok_number "1", Token.tok_def,
        Token.tok_identifier "bar", Token.op '(', Token.tok_identifier "x", Token.op ')',
        Token.tok_identifier "x", Token.op '+', Token.tok_number "1"] =
      [Out.parsedTopLevel, Out.parsedTopLevel] ∧
    Out.parsedDef ∉ MainLoop 30 [Token.op '(', Token.tok_number "1", Token.tok_def,
        Token.tok_identifier "bar", Token.op '(', Token.tok_identifier "x", Token.op ')',
        Token.tok_identifier "x", Token.op '+', Token.tok_number "1"] :=
  ⟨rfl, by decide⟩

/-- C4, amended: after a parse failure of one top-level unit, each
handler discards exactly one token (the failure-state lookahead) and
the driver loop continues — a malformed def, extern, or expression
never aborts the session.  The next well-formed unit parses
successfully when the discarded token still belongs to the malformed
unit (e.g. "def 5" followed by "def bar(x) x+1" yields a parsed
definition), but the driver does not in general skip to the next unit
boundary. -/
theorem mainloop_one_token_recovery :
    (∀ (f : Nat) (ts ts1 : List Token), ParseDefinition f ts = (none, ts1) →
      HandleDefinition f ts = (none, advance ts1)) ∧
    (∀ (f : Nat) (ts ts1 : List Token), ParseExt ts = (none, ts1) →
      HandleExt f ts = (none, advance ts1)) ∧
    (∀ (f : Nat) (ts ts1 : List Token), ParseTopLevelExpr f ts = (none, ts1) →
      HandleTopLevelExpression f ts = (none, advance ts1)) ∧
    (∀ (f : Nat) (ts ts1 : List Token), peek ts = Token.tok_def →
      ParseDefinition f ts = (none, ts1) →
      MainLoop (f + 1) ts = MainLoop f (advance ts1)) ∧
    MainLoop 30 [Token.tok_def, Token.tok_number "5", Token.tok_def,
        Token.tok_identifier "bar", Token.op '(', Token.tok_identifier "x", Token.op ')',
        Token.tok_identifier "x", Token.op '+', Token.tok_number "1"] = [Out.parsedDef] := by
  refine ⟨?_, ?_, ?_, ?_, rfl⟩
  · intro f ts ts1 h
    simp [HandleDefinition, h]
  · intro f ts ts1 h
    simp [HandleExt, h]
  · intro f ts ts1 h
    simp [HandleTopLevelExpression, h]
  · intro f ts ts1 hp h
    simp only [MainLoop, hp]
    simp [HandleDefinition, h]

/-- Witness for the amended C4 at a concrete input: a malformed
definition makes HandleDefinition skip exactly one token past the
failure point. -/
theorem mainloop_one_token_recovery_witness :
    HandleDefinition 5 [Token.tok_def, Token.tok_number "5"] = (none, []) :=
  mainloop_one_token_recovery.1 5 [Token.tok_def, Token.tok_number "5"]
    [Token.tok_number "5"] rfl

/-- C2: when both operands of a BinaryExprAST emit successfully, '+'
emits a floating add, '-' a floating subtract, '*' a floating
multiply, and '<' the fcmp-ult comparison whose boolean result is
widened back to double by uitofp (0.0/1.0); any operator character
outside that set makes the emission fail. -/
theorem binaryop_codegen_dispatch (env : String → Option IRValue)
    (reg : String → Option PrototypeAST) (f : Nat) (l r : ExprAST) (s s1 s2 : List Instr)
    (L R : IRValue)
    (hl : codegen env reg f l s = (some L, s1))
    (hr : codegen env reg f r s1 = (some R, s2)) :
    codegen env reg (f + 1) (ExprAST.binary '+' l r) s =
      (some (IRValue.inst s2.length), s2 ++ [Instr.fadd L R]) ∧
    codegen env reg (f + 1) (ExprAST.binary '-' l r) s =
      (some (IRValue.inst s2.length), s2 ++ [Instr.fsub L R]) ∧
    codegen env reg (f + 1) (ExprAST.binary '*' l r) s =
      (some (IRValue.inst s2.length), s2 ++ [Instr.fmul L R]) ∧
    codegen env reg (f + 1) (ExprAST.binary '<' l r) s =
      (some (IRValue.inst (s2.length + 1)),
        s2 ++ [Instr.fcmpult L R, Instr.uitofp (IRValue.inst s2.length)]) ∧
    (∀ op : Char, op ≠ '+' → op ≠ '-' → op ≠ '*' → op ≠ '<' →
      codegen env reg (f + 1) (ExprAST.binary op l r) s = (none, s2)) := by
  refine ⟨?_, ?_, ?_, ?_, ?_⟩
  · simp [codegen, hl, hr, emit]
  · simp [codegen, hl, hr, emit]
  · simp [codegen, hl, hr, emit]
  · simp [codegen, hl, hr, emit]
  · intro op h1 h2 h3 h4
    simp [codegen, hl, hr, h1, h2, h3, h4]

/-- Witness for C2 at a concrete input: 1 + 2 emits one fadd and
1 % 2 fails to emit. -/
theorem binaryop_codegen_dispatch_witness :
    codegen env0 reg0 2 (ExprAST.binary '+' (ExprAST.number "1") (ExprAST.number "2")) [] =
      (some (IRValue.inst 0), [Instr.fadd (IRValue.constFP "1") (IRValue.constFP "2")]) ∧
    codegen env0 reg0 2 (ExprAST.binary '%' (ExprAST.number "1") (ExprAST.number "2")) [] =
      (none, []) := by
  have h := binaryop_codegen_dispatch env0 reg0 1 (ExprAST.number "1") (ExprAST.number "2")
    [] [] [] (IRValue.constFP "1") (IRValue.constFP "2") rfl rfl
  exact ⟨h.1, h.2.2.2.2 '%' (by decide) (by decide) (by decide) (by decide)⟩

/-- C10: BinaryExprAST::codegen emits the right operand before
checking whether the left operand failed, so a failing BinaryOp
emission still performs all IR side effects of the right subtree: the
final builder state is the one left by emitting the right operand. -/
theorem binaryop_codegen_right_effects (env : String → Option IRValue)
    (reg : String → Option PrototypeAST) (f : Nat) (op : Char) (l r : ExprAST)
    (s : List Instr)
    (h : (codegen env reg f l s).1 = none) :
    codegen env reg (f + 1) (ExprAST.binary op l r) s =
      (none, (codegen env reg f r (codegen env reg f l s).2).2) := by
  rcases hcl : codegen env reg f l s with ⟨resL, s1⟩
  rw [hcl] at h
  simp only at h
  subst h
  rcases hcr : codegen env reg f r s1 with ⟨resR, s2⟩
  cases resR <;> simp [codegen, hcl, hcr]

/-- Witness for C10 at a concrete input: emitting x * (1 + 2) with x
unbound fails, yet the fadd of the right subtree has been emitted. -/
theorem binaryop_codegen_right_effects_witness :
    codegen env0 reg0 3 (ExprAST.binary '*' (ExprAST.variable "x")
        (ExprAST.binary '+' (ExprAST.number "1") (ExprAST.number "2"))) [] =
      (none, [Instr.fadd (IRValue.constFP "1") (IRValue.constFP "2")]) :=
  binaryop_codegen_right_effects env0 reg0 2 '*' (ExprAST.variable "x")
    (ExprAST.binary '+' (ExprAST.number "1") (ExprAST.number "2")) [] rfl

/-- C3: Call emission resolves the callee in the module registry and
fails when it is absent; with the callee registered, an argument count
different from the registered prototype's parameter count is an
arity-mismatch failure; concretely, after "extern foo(a b)", emitting
foo(1) fails and emitting foo(1, 2) succeeds with a call instruction. -/
theorem call_codegen_arity (env : String → Option IRValue)
    (reg : String → Option PrototypeAST) :
    (∀ (f : Nat) (callee : String) (args : List ExprAST) (s : List Instr),
      reg callee = none →
      codegen env reg f (ExprAST.call callee args) s = (none, s)) ∧
    (∀ (f : Nat) (callee : String) (args : List ExprAST) (s : List Instr)
      (p : PrototypeAST),
      reg callee = some p → args.length ≠ p.args.length →
      codegen env reg f (ExprAST.call callee args) s = (none, s)) ∧
    codegen env regFoo 10 (ExprAST.call "foo" [ExprAST.number "1"]) [] = (none, []) ∧
    codegen env regFoo 10 (ExprAST.call "foo" [ExprAST.number "1", ExprAST.number "2"]) [] =
      (some (IRValue.inst 0),
        [Instr.call "foo" [IRValue.constFP "1", IRValue.constFP "2"]]) := by
  refine ⟨?_, ?_, rfl, rfl⟩
  · intro f callee args s h
    match f with
    | 0 => rfl
    | 1 => rfl
    | f + 2 => simp [codegen, CodegenCall, h]
  · intro f callee args s p h hlen
    match f with
    | 0 => rfl
    | 1 => rfl
    | f + 2 => simp [codegen, CodegenCall, h, hlen]

/-- Witness for C3 at a concrete input: a call to an unregistered
function fails to emit. -/
theorem call_codegen_arity_witness :
    codegen env0 reg0 5 (ExprAST.call "g" []) [] = (none, []) :=
  (call_codegen_arity env0 reg0).1 5 "g" [] [] rfl

/-- Helper: with LastChar already at EOF, gettok returns tok_eof and
leaves the state untouched (the EOF test precedes any read). -/
theorem gettok_at_eof (s : LexState) (h : s.lastChar = none) :
    gettok s = (Token.tok_eof, s) := by
  rcases s with ⟨lc, r⟩
  simp only at h
  subst h
  rw [gettok.eq_def]
  split
  · rename_i rest heq
    simp [skipSpaces] at heq
    rw [heq]
  · rename_i c rest heq
    simp [skipSpaces] at heq

/-- Helper: every state in which gettok returns tok_eof has LastChar
at EOF (tok_eof is only produced at the EOF test, which does not
advance the stream). -/
theorem gettok_eof_lastChar_aux (n : Nat) :
    ∀ (s : LexState), s.rest.length < n → ∀ (t : Token) (s' : LexState),
      gettok s = (t, s') → t = Token.tok_eof → s'.lastChar = none := by
  induction n with
  | zero =>
    intro s hlen
    exact absurd hlen (Nat.not_lt_zero _)
  | succ n ih =>
    intro s hlen t s' h ht
    subst ht
    rw [gettok.eq_def] at h
    split at h
    · -- whitespace skip ran to EOF
      injection h with h1 h2
      subst h2
      rfl
    · rename_i c rest0 heq0
      split at h
      · -- identifier branch: the token is never tok_eof
        rcases hid : identLoop [c] rest0 with ⟨idChars, lc2, rest2⟩
        rw [hid] at h
        injection h with h1 h2
        split at h1 <;> (try split at h1) <;> simp at h1
      · split at h
        · -- number branch: the token is never tok_eof
          rcases hnum : numLoop [c] rest0 with ⟨numChars, lc2, rest2⟩
          rw [hnum] at h
          injection h with h1 h2
          simp at h1
        · split at h
          · -- comment branch
            split at h
            · rename_i c2 rest2 heq1
              have hlt := skipComment_length_lt rest0 c2 rest2 heq1
              have hle := skipSpaces_length_le s.rest s.lastChar
              rw [heq0] at hle
              simp only at hle
              have hb : rest2.length < n := by omega
              exact ih ⟨some c2, rest2⟩ hb Token.tok_eof s' h rfl
            · injection h with h1 h2
              subst h2
              rfl
          · -- single-character operator branch: the token is never tok_eof
            split at h <;> (injection h with h1 h2; simp at h1)

/-- C5: once gettok has returned tok_eof, every subsequent call
returns tok_eof again with the state unchanged, for every input
stream: the tokenizer never leaves the end-of-input state. -/
theorem gettok_eof_idempotent (s s' : LexState) (t : Token)
    (h : gettok s = (t, s')) (ht : t = Token.tok_eof) :
    gettok s' = (Token.tok_eof, s') :=
  gettok_at_eof s'
    (gettok_eof_lastChar_aux (s.rest.length + 1) s (Nat.lt_succ_self _) t s' h ht)

/-- Witness for C5 at a concrete input: a blank followed by a comment
running to end of input produces tok_eof, and gettok on the resulting
state yields tok_eof again. -/
theorem gettok_eof_idempotent_witness :
    gettok ⟨none, []⟩ = (Token.tok_eof, ⟨none, []⟩) :=
  gettok_eof_idempotent ⟨some ' ', ['#']⟩ ⟨none, []⟩ Token.tok_eof
    (by rw [gettok.eq_def]; decide) rfl

/-- Helper: an alphabetic character is not whitespace, so the
whitespace skip leaves it in place. -/
theorem isalpha_not_isspace (c : Char) (h : isalpha c = true) : isspace c = false := by
  by_contra hs
  rw [Bool.not_eq_false] at hs
  simp only [isspace, Bool.or_eq_true, decide_eq_true_eq] at hs
  rcases hs with ((((h1 | h1) | h1) | h1) | h1) | h1 <;> subst h1 <;>
    exact absurd h (by decide)

/-- Helper: the identifier loop consumes exactly the maximal
alphanumeric run, leaving LastChar on the first non-alphanumeric
character (or EOF). -/
theorem identLoop_spec :
    ∀ (mid acc rest2 : List Char),
      (∀ d ∈ mid, isalnum d = true) →
      (∀ d rs, rest2 = d :: rs → isalnum d = false) →
      identLoop acc (mid ++ rest2) = (acc ++ mid, rest2.head?, rest2.tail) := by
  intro mid
  induction mid with
  | nil =>
    intro acc rest2 _ hr
    cases rest2 with
    | nil => simp [identLoop]
    | cons d rs =>
      have hd := hr d rs rfl
      simp [identLoop, hd]
  | cons m ms ih =>
    intro acc rest2 hm hr
    have hm1 : isalnum m = true := hm m (by simp)
    have hrec := ih (acc ++ [m]) rest2 (fun d hd => hm d (by simp [hd])) hr
    simp only [List.cons_append, identLoop, hm1, if_true]
    exact hrec.trans (by simp)

/-- C7: on a maximal input sequence matching [A-Za-z][A-Za-z0-9]* the
tokenizer returns tok_def for "def", tok_extern for "extern", and
otherwise an identifier token carrying exactly the matched text,
leaving LastChar on the first character past the match. -/
theorem tokenize_identifier (c : Char) (mid rest2 : List Char)
    (h1 : isalpha c = true)
    (h2 : ∀ d ∈ mid, isalnum d = true)
    (h3 : ∀ d rs, rest2 = d :: rs → isalnum d = false) :
    gettok ⟨some c, mid ++ rest2⟩ =
      (if String.mk (c :: mid) = "def" then Token.tok_def
       else if String.mk (c :: mid) = "extern" then Token.tok_ext
       else Token.tok_identifier (String.mk (c :: mid)),
       ⟨rest2.head?, rest2.tail⟩) := by
  have hss : skipSpaces (some c) (mid ++ rest2) = (some c, mid ++ rest2) := by
    rw [skipSpaces.eq_def]
    simp [isalpha_not_isspace c h1]
  have hid := identLoop_spec mid [c] rest2 h2 h3
  rw [gettok.eq_def]
  split
  · rename_i rest0 heq0
    rw [hss] at heq0
    simp at heq0
  · rename_i c' rest0 heq0
    rw [hss] at heq0
    injection heq0 with e1 e2
    injection e1 with e1
    subst e1
    subst e2
    rw [if_pos h1, hid]
    simp

/-- Witness for C7 at a concrete input: the maximal run "foo" becomes
an identifier token carrying "foo". -/
theorem tokenize_identifier_witness :
    gettok ⟨some 'f', ['o', 'o']⟩ = (Token.tok_identifier "foo", ⟨none, []⟩) := by
  have h := tokenize_identifier 'f' ['o', 'o'] [] (by decide) (by decide)
    (fun _ _ hd => List.noConfusion hd)
  exact h.trans (by decide)

end Kaleidoscope
